import Mathlib

/-
  Verification of the gophkeeper secrets manager (alexuryumtsev/gophkeeper)
  against its natural-language specification.

  The Go source is shallowly embedded: byte slices become `List Nat`,
  UUIDs and instants become `Nat`, fallible functions return `Except`,
  and the external cryptographic primitives (argon2 key derivation,
  AES-256-GCM seal/open, base64, JSON marshalling) are abstract function
  parameters, so every repository-owned line of the embedded functions is
  translated from the source.  Randomness (salt, nonce) is passed
  explicitly where the Go code draws it from crypto/rand.
-/

namespace Gophkeeper

/-- Error values of the AES encryptor, from internal/crypto
(src/unnamed/part_003): `ErrInvalidData` and `ErrDecryptionFailed`. -/
inductive CryptoError where
  | invalidData
  | decryptionFailed
deriving DecidableEq, Repr

/-- Constant `saltSize = 32` from src/unnamed/part_003. -/
def saltSize : Nat := 32

/-- Constant `nonceSize = 12` from src/unnamed/part_003. -/
def nonceSize : Nat := 12

/-- Constant `keySize = 32` from src/unnamed/part_003. -/
def keySize : Nat := 32

/-- Go method `(*AESEncryptor).Encrypt` from src/unnamed/part_003.  The Go code draws
a fresh 32-byte `salt` and a fresh 12-byte `nonce` from crypto/rand (modelled
as explicit arguments), derives the key with argon2 (`kdf`), seals with
AES-256-GCM (`aeadSeal`, which appends the 16-byte tag to the ciphertext),
and returns the concatenation salt ++ nonce ++ ciphertext.  With a 32-byte
key, `aes.NewCipher` and `cipher.NewGCM` never fail, so the happy path is
the only path. -/
def Encrypt (kdf : String → List Nat → List Nat)
    (aeadSeal : List Nat → List Nat → List Nat → List Nat)
    (data : List Nat) (password : String) (salt nonce : List Nat) : List Nat :=
  let key := kdf password salt
  let ciphertext := aeadSeal key nonce data
  salt ++ nonce ++ ciphertext

/-- Go method `(*AESEncryptor).Decrypt` from src/unnamed/part_003: reject blobs shorter
than saltSize + nonceSize = 44 bytes with `ErrInvalidData`; otherwise split
off the salt and the nonce, re-derive the key from the embedded salt, and
open the AEAD (`aeadOpen` returns `none` on any authentication failure);
every AEAD failure is mapped to `ErrDecryptionFailed`. -/
def Decrypt (kdf : String → List Nat → List Nat)
    (aeadOpen : List Nat → List Nat → List Nat → Option (List Nat))
    (encryptedData : List Nat) (password : String) :
    Except CryptoError (List Nat) :=
  if encryptedData.length < saltSize + nonceSize then
    .error .invalidData
  else
    let salt := encryptedData.take saltSize
    let nonce := (encryptedData.drop saltSize).take nonceSize
    let ciphertext := encryptedData.drop (saltSize + nonceSize)
    let key := kdf password salt
    match aeadOpen key nonce ciphertext with
    | some plaintext => .ok plaintext
    | none => .error .decryptionFailed

/-- The byte-comparison loop at the end of `VerifyPassword`
(src/unnamed/part_003): compare element by element, returning `false` at the
first mismatch.  The second component counts how many loop iterations were
executed (the cost of the comparison): `i + 1` when the first mismatch is at
index `i`, and the full length when the inputs agree. -/
def cmpBytes : List Nat → List Nat → Bool × Nat
  | [], _ => (true, 0)
  | _ :: _, [] => (true, 0)
  | a :: as, b :: bs =>
    if a ≠ b then (false, 1)
    else
      let r := cmpBytes as bs
      (r.1, r.2 + 1)

/-- Index of the first position where the two lists differ, if any; used to
state where the comparison loop of `VerifyPassword` stops. -/
def firstDiff : List Nat → List Nat → Option Nat
  | a :: as, b :: bs => if a ≠ b then some 0 else (firstDiff as bs).map (· + 1)
  | _, _ => none

/-- Go function `VerifyPassword` from src/unnamed/part_003.  Base64-decode the stored
verifier (`b64decode` abstracts encoding/base64 StdEncoding.DecodeString,
returning `none` on a decode error); reject when decoding fails or the
result is not exactly saltSize + keySize = 64 bytes; split into salt and
stored hash, re-derive `testHash` with argon2 (`kdf`), and compare the two
hashes byte by byte with an early exit at the first mismatch. -/
def VerifyPassword (b64decode : String → Option (List Nat))
    (kdf : String → List Nat → List Nat)
    (password hashedPassword : String) : Bool :=
  match b64decode hashedPassword with
  | none => false
  | some data =>
    if data.length ≠ saltSize + keySize then false
    else
      let salt := data.take saltSize
      let hash := data.drop saltSize
      let testHash := kdf password salt
      if hash.length ≠ testHash.length then false
      else (cmpBytes hash testHash).1

/-- Function `VerifyPassword` instrumented with the iteration count of its final
comparison loop (second component); the boolean component is exactly
`VerifyPassword`.  Early-rejection branches run zero loop iterations. -/
def VerifyPasswordTimed (b64decode : String → Option (List Nat))
    (kdf : String → List Nat → List Nat)
    (password hashedPassword : String) : Bool × Nat :=
  match b64decode hashedPassword with
  | none => (false, 0)
  | some data =>
    if data.length ≠ saltSize + keySize then (false, 0)
    else
      let salt := data.take saltSize
      let hash := data.drop saltSize
      let testHash := kdf password salt
      if hash.length ≠ testHash.length then (false, 0)
      else cmpBytes hash testHash

/-- Error of the crypto service decode path: a decrypt failure is propagated
unchanged (internal/server/repository cryptoService `DecryptSecretData`
returns `err` as is), and a JSON-deserialization failure is reported as
"failed to deserialize data". -/
inductive DecodeError where
  | cryptoErr (e : CryptoError)
  | deserializeFailed
deriving DecidableEq, Repr

/-- A JSON value, the result of `json.Unmarshal` into `interface\x7b\x7d` in
`DecryptSecretData`: the Go any-typed value is one of null, bool, number,
string, array, or object. -/
inductive Json where
  | null
  | bool (b : Bool)
  | num (n : Int)
  | str (s : String)
  | arr (elems : List Json)
  | obj (fields : List (String × Json))

/-- Go method `EncryptSecretData` of the wired crypto service
(package service, bottom of src/internal/server/repository/repository.go
listing): serialize the payload with `json.Marshal` (abstracted as the total
function `marshal`) and push the bytes through `Encrypt`. -/
def EncryptSecretData {α : Type} (marshal : α → List Nat)
    (kdf : String → List Nat → List Nat)
    (aeadSeal : List Nat → List Nat → List Nat → List Nat)
    (data : α) (masterPassword : String) (salt nonce : List Nat) : List Nat :=
  Encrypt kdf aeadSeal (marshal data) masterPassword salt nonce

/-- Go method `DecryptSecretData` of the wired crypto service: `Decrypt`, then
`json.Unmarshal` into an untyped value (`parse` abstracts the JSON parser,
`none` on a parse error).  Note the Go function receives no `SecretType`:
the decoded value is never checked against the secret's declared type. -/
def DecryptSecretData {α : Type} (parse : List Nat → Option α)
    (kdf : String → List Nat → List Nat)
    (aeadOpen : List Nat → List Nat → List Nat → Option (List Nat))
    (encryptedData : List Nat) (masterPassword : String) :
    Except DecodeError α :=
  match Decrypt kdf aeadOpen encryptedData masterPassword with
  | .error e => .error (.cryptoErr e)
  | .ok decryptedBytes =>
    match parse decryptedBytes with
    | none => .error .deserializeFailed
    | some data => .ok data

/-- Go type `SecretType` from internal/models/secret.go. -/
inductive SecretType where
  | credentials
  | text
  | binary
  | card
deriving DecidableEq, Repr

/-- Look up a field of a JSON object by key. -/
def getField (fields : List (String × Json)) (k : String) : Option Json :=
  (fields.find? (fun f => f.1 == k)).map (fun f => f.2)

/-- Whether an optional JSON value is present and a string. -/
def isStr : Option Json → Bool
  | some (Json.str _) => true
  | _ => false

/-- Whether an optional JSON value is present and a number. -/
def isNum : Option Json → Bool
  | some (Json.num _) => true
  | _ => false

/-- Modelled from the spec: the payload-variant shapes keyed by `SecretType`
(credentials, text, binary, card with their required fields).  The server
source contains no such check — this definition exists only to state what a
shape mismatch is when settling the claim that mismatches are decode
errors. -/
def shapesMatch : SecretType → Json → Bool
  | .credentials, .obj fs =>
    isStr (getField fs "name") && isStr (getField fs "username") &&
      isStr (getField fs "password")
  | .text, .obj fs =>
    isStr (getField fs "name") && isStr (getField fs "content")
  | .binary, .obj fs =>
    isStr (getField fs "name") && isStr (getField fs "filename") &&
      isStr (getField fs "data")
  | .card, .obj fs =>
    isStr (getField fs "name") && isStr (getField fs "number") &&
      isNum (getField fs "expiry_month") && isNum (getField fs "expiry_year") &&
      isStr (getField fs "cvv") && isStr (getField fs "holder")
  | _, _ => false

/-- Go struct `models.Secret` from internal/models/secret.go: the stored envelope row
of the `secrets` table.  UUIDs and instants are modelled as `Nat`. -/
structure Secret where
  id : Nat
  userID : Nat
  type : SecretType
  name : String
  metadata : String
  data : List Nat
  syncHash : String
  createdAt : Nat
  updatedAt : Nat
deriving DecidableEq, Repr

/-- Go type `models.OperationType` from internal/models/sync.go. -/
inductive OperationType where
  | create
  | update
  | delete
deriving DecidableEq, Repr

/-- Go struct `models.SyncOperation` from internal/models/sync.go: one row of the
append-only `sync_operations` log. -/
structure SyncOperation where
  id : Nat
  userID : Nat
  secretID : Nat
  operation : OperationType
  timestamp : Nat
deriving DecidableEq, Repr

/-- Go struct `models.SecretResponse` from internal/models/secret.go; `α` is the type
of the decrypted payload (`any` in Go). -/
structure SecretResponse (α : Type) where
  id : Nat
  type : SecretType
  name : String
  data : α
  metadata : String
  createdAt : Nat
  updatedAt : Nat
  syncHash : String
deriving DecidableEq, Repr

/-- Go struct `models.SyncResponse` from internal/models/sync.go. -/
structure SyncResponse (α : Type) where
  updatedSecrets : List (SecretResponse α)
  deletedSecrets : List Nat
  syncTime : Nat
deriving DecidableEq, Repr

/-- Comparison used by the SQL `ORDER BY timestamp` of
`GetSyncOperationsAfter` (internal/server/repository/repository.go): order
log rows by timestamp only — the query names no secondary sort key. -/
def tsLE (a b : SyncOperation) : Prop := a.timestamp ≤ b.timestamp

instance : DecidableRel tsLE := fun a b =>
  inferInstanceAs (Decidable (a.timestamp ≤ b.timestamp))

instance : IsTotal SyncOperation tsLE :=
  ⟨fun a b => Nat.le_total a.timestamp b.timestamp⟩

instance : IsTrans SyncOperation tsLE :=
  ⟨fun _ _ _ h h2 => Nat.le_trans h h2⟩

/-- Comparison used by the SQL `ORDER BY updated_at` of
`GetSecretsModifiedAfter` (internal/server/repository/repository.go). -/
def updLE (a b : Secret) : Prop := a.updatedAt ≤ b.updatedAt

instance : DecidableRel updLE := fun a b =>
  inferInstanceAs (Decidable (a.updatedAt ≤ b.updatedAt))

instance : IsTotal Secret updLE :=
  ⟨fun a b => Nat.le_total a.updatedAt b.updatedAt⟩

instance : IsTrans Secret updLE :=
  ⟨fun _ _ _ h h2 => Nat.le_trans h h2⟩

/-- Go method `GetSyncOperationsAfter` from
internal/server/repository/repository.go: the query
SELECT ... FROM sync_operations WHERE user_id = $1 AND timestamp > $2
ORDER BY timestamp.  The table is modelled as the list of rows in insertion
order; the sort is a stable sort by timestamp alone, the most favorable
deterministic reading of the SQL (Postgres guarantees only the timestamp
order, not stability). -/
def GetSyncOperationsAfter (table : List SyncOperation)
    (userID after : Nat) : List SyncOperation :=
  List.insertionSort tsLE
    (table.filter (fun op => decide (op.userID = userID ∧ after < op.timestamp)))

/-- Go method `GetSecretsModifiedAfter` from
internal/server/repository/repository.go: the query
SELECT ... FROM secrets WHERE user_id = $1 AND updated_at > $2
ORDER BY updated_at. -/
def GetSecretsModifiedAfter (table : List Secret)
    (userID after : Nat) : List Secret :=
  List.insertionSort updLE
    (table.filter (fun s => decide (s.userID = userID ∧ after < s.updatedAt)))

/-- Go method `GetSecretByID` from internal/server/repository/repository.go:
SELECT ... FROM secrets WHERE id = $1 AND user_id = $2, with
`pgx.ErrNoRows` mapped to a nil secret (`none`). -/
def GetSecretByID (table : List Secret) (secretID userID : Nat) :
    Option Secret :=
  table.find? (fun s => decide (s.id = secretID ∧ s.userID = userID))

/-- The effect of the UPDATE statement of `UpdateSecret`
(internal/server/repository/repository.go) on one row: rows matching
WHERE id = $1 AND user_id = $2 get SET name, metadata, data, sync_hash,
updated_at; all other rows are untouched. -/
def updateRow (s row : Secret) : Secret :=
  if row.id = s.id ∧ row.userID = s.userID then
    { row with
      name := s.name
      metadata := s.metadata
      data := s.data
      syncHash := s.syncHash
      updatedAt := s.updatedAt }
  else row

/-- Go method `UpdateSecret` from internal/server/repository/repository.go:
run the UPDATE, then report "secret not found or access denied" when
RowsAffected is zero (no row matched id and user_id). -/
def UpdateSecret (table : List Secret) (s : Secret) :
    Except String (List Secret) :=
  if table.any (fun row => decide (row.id = s.id ∧ row.userID = s.userID)) then
    .ok (table.map (updateRow s))
  else
    .error "secret not found or access denied"

/-- Server-side persistent state: the `secrets` table and the
`sync_operations` table, each as its list of rows in insertion order. -/
structure ServerState where
  secrets : List Secret
  syncOps : List SyncOperation
deriving DecidableEq, Repr

/-- Go method `CreateSecret` from internal/server/repository/repository.go:
INSERT INTO secrets; the schema's PRIMARY KEY makes the insert fail on a
duplicate id ("failed to create secret"). -/
def repoCreateSecret (st : ServerState) (s : Secret) :
    Except String ServerState :=
  if st.secrets.any (fun row => row.id == s.id) then
    .error "failed to create secret"
  else
    .ok { st with secrets := st.secrets ++ [s] }

/-- Go method `DeleteSecret` from internal/server/repository/repository.go:
DELETE FROM secrets WHERE id = $1 AND user_id = $2, then report
"secret not found or access denied" when RowsAffected is zero. -/
def repoDeleteSecret (st : ServerState) (secretID userID : Nat) :
    Except String ServerState :=
  let remaining := st.secrets.filter
    (fun row => !(decide (row.id = secretID ∧ row.userID = userID)))
  if remaining.length = st.secrets.length then
    .error "secret not found or access denied"
  else
    .ok { st with secrets := remaining }

/-- State-passing form of `UpdateSecret`. -/
def repoUpdateSecret (st : ServerState) (s : Secret) :
    Except String ServerState :=
  match UpdateSecret st.secrets s with
  | .error e => .error e
  | .ok tbl => .ok { st with secrets := tbl }

/-- Go method `CreateSyncOperation` from
internal/server/repository/repository.go: INSERT INTO sync_operations.
The boolean `logAppendFails` injects a database failure of exactly this
insert ("failed to create sync operation"), the scenario the atomicity
claim is about. -/
def repoCreateSyncOperation (logAppendFails : Bool) (st : ServerState)
    (op : SyncOperation) : Except String ServerState :=
  if logAppendFails then
    .error "failed to create sync operation"
  else
    .ok { st with syncOps := st.syncOps ++ [op] }

/-- Go method `WithTransaction` from
internal/server/transaction/transaction.go: begin, run the closure, commit
on success; the deferred Rollback undoes the transaction when the closure
returns an error.  The pair returned is (result, state after the call).
This is the most favorable reading: in the Go code the repository executes
its statements on the pool rather than on the transaction stored in the
context (`GetTxFromContext` has no caller), so a real rollback would revert
nothing; the refutations proved below hold already under this generous
model. -/
def WithTransaction (st : ServerState)
    (fn : ServerState → Except String ServerState) :
    Except String Unit × ServerState :=
  match fn st with
  | .error e => (.error e, st)
  | .ok st1 => (.ok (), st1)

/-- Go method `CreateSecret` of the secrets domain service
(src/unnamed/part_010, transaction body): inside `WithTransaction`, insert
the secret — a failure aborts the closure — then append the operation-log
entry; a log-append failure is caught, printed as a warning, and the
closure still returns nil. -/
def createSecretTx (logAppendFails : Bool) (st : ServerState)
    (secret : Secret) (op : SyncOperation) :
    Except String Unit × ServerState :=
  WithTransaction st (fun txSt =>
    match repoCreateSecret txSt secret with
    | .error e => .error ("failed to create secret: " ++ e)
    | .ok st1 =>
      match repoCreateSyncOperation logAppendFails st1 op with
      | .error _ => .ok st1
      | .ok st2 => .ok st2)

/-- Go method `UpdateSecret` of the secrets domain service
(src/unnamed/part_010, transaction body): same shape as `createSecretTx`
with the repository update. -/
def updateSecretTx (logAppendFails : Bool) (st : ServerState)
    (secret : Secret) (op : SyncOperation) :
    Except String Unit × ServerState :=
  WithTransaction st (fun txSt =>
    match repoUpdateSecret txSt secret with
    | .error e => .error ("failed to update secret: " ++ e)
    | .ok st1 =>
      match repoCreateSyncOperation logAppendFails st1 op with
      | .error _ => .ok st1
      | .ok st2 => .ok st2)

/-- Go method `DeleteSecret` of the secrets domain service
(src/unnamed/part_010, transaction body): same shape with the repository
delete. -/
def deleteSecretTx (logAppendFails : Bool) (st : ServerState)
    (secretID userID : Nat) (op : SyncOperation) :
    Except String Unit × ServerState :=
  WithTransaction st (fun txSt =>
    match repoDeleteSecret txSt secretID userID with
    | .error e => .error ("failed to delete secret: " ++ e)
    | .ok st1 =>
      match repoCreateSyncOperation logAppendFails st1 op with
      | .error _ => .ok st1
      | .ok st2 => .ok st2)

/-- Build a `SecretResponse` from a stored secret and its decrypted payload
(`buildSecretResponse` in src/unnamed/part_010 and the literal in both
`ProcessSyncRequest` implementations). -/
def buildSecretResponse {α : Type} (secret : Secret) (data : α) :
    SecretResponse α :=
  { id := secret.id, type := secret.type, name := secret.name, data := data,
    metadata := secret.metadata, createdAt := secret.createdAt,
    updatedAt := secret.updatedAt, syncHash := secret.syncHash }

/-- Go method `ProcessSyncRequest` of the sync service wired by `NewServer`
(internal/server/service/sync_service.go): fetch the secrets modified after
the request's last-sync time, decrypt each one — a decrypt failure skips
that secret with `continue` — and answer with the decrypted responses, a
hard-coded empty deleted list, and the current server time.  `decrypt`
abstracts `cryptoService.DecryptSecretData` with the master password
applied; `now` models `time.Now()`. -/
def serviceProcessSyncRequest {α : Type}
    (decrypt : List Nat → String → Except String α)
    (secrets : List Secret) (userID lastSyncTime : Nat)
    (masterPassword : String) (now : Nat) :
    Except String (SyncResponse α) :=
  let modified := GetSecretsModifiedAfter secrets userID lastSyncTime
  let secretResponses := modified.filterMap (fun secret =>
    match decrypt secret.data masterPassword with
    | .error _ => none
    | .ok d => some (buildSecretResponse secret d))
  .ok { updatedSecrets := secretResponses, deletedSecrets := [],
        syncTime := now }

/-- One step of the fold over the operation log in the legacy
`ProcessSyncRequest` of package server (src/unnamed/part_008): a create or
update marks the secret id pending (`updatedSecretIDs[op.SecretID] = true`,
modelled as a duplicate-free list in first-insertion order), and a delete
appends the id to the deleted list and removes it from the pending set. -/
def foldStep (acc : List Nat × List Nat) (op : SyncOperation) :
    List Nat × List Nat :=
  match op.operation with
  | .create | .update =>
    (if op.secretID ∈ acc.1 then acc.1 else acc.1 ++ [op.secretID], acc.2)
  | .delete =>
    (acc.1.filter (fun sid => sid ≠ op.secretID), acc.2 ++ [op.secretID])

/-- The fetch-and-decrypt loop of the legacy `ProcessSyncRequest`
(src/unnamed/part_008): for each pending secret id, fetch it scoped to the
user — an absent row is silently skipped — and decrypt it; here a decrypt
failure IS fatal (`return nil, fmt.Errorf(...)`).  The Go loop ranges over
a map in randomized order; the pending ids are visited here in
first-insertion order as a deterministic proxy — no claim below depends on
the order of the updated list. -/
def collectUpdated {α : Type} (decrypt : List Nat → String → Except String α)
    (secrets : List Secret) (userID : Nat) (masterPassword : String) :
    List Nat → Except String (List (SecretResponse α))
  | [] => .ok []
  | sid :: rest =>
    match GetSecretByID secrets sid userID with
    | none => collectUpdated decrypt secrets userID masterPassword rest
    | some secret =>
      match decrypt secret.data masterPassword with
      | .error e => .error ("failed to decrypt secret data: " ++ e)
      | .ok d =>
        match collectUpdated decrypt secrets userID masterPassword rest with
        | .error e => .error e
        | .ok tail => .ok (buildSecretResponse secret d :: tail)

/-- Go method `ProcessSyncRequest` of the legacy package-server sync service
(src/unnamed/part_008): read the operation log after the last-sync time,
fold it into pending-update ids and deleted ids, then fetch and decrypt the
pending secrets. -/
def serverProcessSyncRequest {α : Type}
    (decrypt : List Nat → String → Except String α)
    (st : ServerState) (userID lastSyncTime : Nat)
    (masterPassword : String) (now : Nat) :
    Except String (SyncResponse α) :=
  let syncOps := GetSyncOperationsAfter st.syncOps userID lastSyncTime
  let folded := syncOps.foldl foldStep ([], [])
  match collectUpdated decrypt st.secrets userID masterPassword folded.1 with
  | .error e => .error e
  | .ok updatedSecrets =>
    .ok { updatedSecrets := updatedSecrets, deletedSecrets := folded.2,
          syncTime := now }

/-- Degenerate key-derivation instance (all-zero key) used in concrete
checks; any function of the right type is a legitimate instantiation of the
abstract argon2 parameter. -/
def kdfZero : String → List Nat → List Nat := fun _ _ => List.replicate keySize 0

/-- Concrete verifier table used to exercise the comparison loop of
`VerifyPassword`: both verifiers carry an all-zero salt; the stored key of
verifier "v1" differs from the derived key at byte 0, that of "v2" at
byte 31. -/
def b64Table : String → Option (List Nat) := fun v =>
  if v = "v1" then some (List.replicate 32 0 ++ (1 :: List.replicate 31 0))
  else if v = "v2" then some (List.replicate 32 0 ++ (List.replicate 31 0 ++ [1]))
  else none

/-- All-zero salt of the statically correct length. -/
def saltZero : List Nat := List.replicate saltSize 0

/-- All-zero nonce of the statically correct length. -/
def nonceZero : List Nat := List.replicate nonceSize 0

/-- Toy key derivation for witnesses: distinct passwords yield distinct
one-byte keys. -/
def kdfToy : String → List Nat → List Nat :=
  fun pw _ => if pw = "a" then [1] else [2]

/-- Toy AEAD seal for witnesses: append the key as the authentication tag. -/
def sealToy : List Nat → List Nat → List Nat → List Nat :=
  fun key _ data => data ++ key

/-- Toy AEAD open matching `sealToy`: succeed exactly when the trailing tag
equals the key — perfect authentication for equal-length keys. -/
def openToy : List Nat → List Nat → List Nat → Option (List Nat) :=
  fun key _ c =>
    if key.length ≤ c.length ∧ c.drop (c.length - key.length) = key then
      some (c.take (c.length - key.length))
    else none

/-- Concrete JSON parser fragment for the shape-mismatch check: the bytes
34 120 34 form the JSON document consisting of the bare string "x". -/
def parseStrX : List Nat → Option Json :=
  fun b => if b = [34, 120, 34] then some (Json.str "x") else none

/-- An AEAD open that accepts and yields the bytes of the JSON document
"x"; stands for a well-formed ciphertext of that plaintext. -/
def openConst : List Nat → List Nat → List Nat → Option (List Nat) :=
  fun _ _ _ => some [34, 120, 34]

/-- A stored secret whose declared type is credentials but whose plaintext
is the JSON string "x". -/
def mismatchSecret : Secret :=
  { id := 1, userID := 1, type := .credentials, name := "GH", metadata := "",
    data := List.replicate 44 0, syncHash := "h", createdAt := 0,
    updatedAt := 1 }

/-- Whether an `Except`-valued sync result is a success; used to state that
a sync request still returns a response. -/
def syncOk {α : Type} : Except String (SyncResponse α) → Bool
  | .ok _ => true
  | .error _ => false

/-- Concrete decryption oracle for witnesses: the ciphertext [1] fails to
decrypt (as under a wrong master password), every other ciphertext decrypts
to itself. -/
def dec0 : List Nat → String → Except String (List Nat) :=
  fun d _ => if d = [1] then .error "bad" else .ok d

/-- A stored secret whose ciphertext `dec0` rejects. -/
def sA : Secret :=
  { id := 1, userID := 1, type := .text, name := "a", metadata := "",
    data := [1], syncHash := "x", createdAt := 1, updatedAt := 1 }

/-- A stored secret whose ciphertext `dec0` accepts. -/
def sB : Secret :=
  { id := 2, userID := 1, type := .text, name := "b", metadata := "",
    data := [2], syncHash := "y", createdAt := 2, updatedAt := 2 }

/-- The boolean component of the instrumented verifier coincides with
`VerifyPassword`: the instrumentation only adds the loop-iteration count. -/
theorem verifyPasswordTimed_fst (b64decode : String → Option (List Nat))
    (kdf : String → List Nat → List Nat) (password v : String) :
    (VerifyPasswordTimed b64decode kdf password v).1 =
      VerifyPassword b64decode kdf password v := by
  unfold VerifyPasswordTimed VerifyPassword
  cases h : b64decode v with
  | none => rfl
  | some data => simp [apply_ite Prod.fst]

/-- C1: the sync endpoint wired by `NewServer` answers every request with a
hard-coded empty deleted list, so a secret deleted after the last-sync
instant is never reported in `deleted` — here user 1 created secret 7 at
instant 1 and deleted it at instant 2, yet a sync from instant 0 returns
`deletedSecrets = []`; the legacy package-server implementation of
`ProcessSyncRequest`, which folds the operation log, returns
`deletedSecrets = [7]` (and excludes 7 from `updated`) on the same state,
as the claim describes. -/
theorem wiredSync_never_reports_deletions :
    serviceProcessSyncRequest (fun _ _ => Except.ok ([] : List Nat))
      ([] : List Secret) 1 0 "mp" 5 =
      .ok { updatedSecrets := [], deletedSecrets := [], syncTime := 5 } ∧
    serverProcessSyncRequest (fun _ _ => Except.ok ([] : List Nat))
      { secrets := []
        syncOps :=
          [{ id := 100, userID := 1, secretID := 7, operation := .create,
             timestamp := 1 },
           { id := 101, userID := 1, secretID := 7, operation := .delete,
             timestamp := 2 }] }
      1 0 "mp" 5 =
      .ok { updatedSecrets := [], deletedSecrets := [7], syncTime := 5 } :=
  ⟨rfl, rfl⟩

/-- C2 counterexample: with an empty store, a fresh secret and a failing
log append, `CreateSecret` does not abort — the closure swallows the log
error, the transaction commits, the call reports success, and the final
state holds the new secret with no matching operation-log entry: the store
change is observed without the log entry. -/
theorem createSecret_commits_despite_log_failure :
    createSecretTx true { secrets := [], syncOps := [] }
      { id := 7, userID := 1, type := .text, name := "n", metadata := "",
        data := [1], syncHash := "h", createdAt := 3, updatedAt := 3 }
      { id := 100, userID := 1, secretID := 7, operation := .create,
        timestamp := 3 } =
      (.ok (),
       { secrets :=
           [{ id := 7, userID := 1, type := .text, name := "n",
              metadata := "", data := [1], syncHash := "h", createdAt := 3,
              updatedAt := 3 }]
         syncOps := [] }) := rfl

/-- C6: the byte comparison in `VerifyPassword` exits at the first
mismatching byte, so its running time (loop-iteration count) depends on the
position of the first differing byte: against the same derived key, a
stored key differing at byte 0 is rejected after 1 comparison and one
differing at byte 31 after 32 comparisons — the comparison is not
constant-time. -/
theorem verifyPassword_time_depends_on_diff_position :
    firstDiff (1 :: List.replicate 31 0) (kdfZero "pw" saltZero) = some 0 ∧
    firstDiff (List.replicate 31 0 ++ [1]) (kdfZero "pw" saltZero) = some 31 ∧
    VerifyPassword b64Table kdfZero "pw" "v1" = false ∧
    VerifyPassword b64Table kdfZero "pw" "v2" = false ∧
    (VerifyPasswordTimed b64Table kdfZero "pw" "v1").2 = 1 ∧
    (VerifyPasswordTimed b64Table kdfZero "pw" "v2").2 = 32 :=
  ⟨rfl, rfl, rfl, rfl, rfl, rfl⟩

/-- C7 counterexample: a secret declared as credentials whose plaintext is
the JSON string "x" — a shape that matches no payload variant — still
decodes successfully: `DecryptSecretData` returns the parsed value instead
of a malformed-payload error, because the decode path never consults the
declared type. -/
theorem decryptSecretData_accepts_mismatched_shape :
    mismatchSecret.type = SecretType.credentials ∧
    DecryptSecretData parseStrX kdfZero openConst mismatchSecret.data "mp" =
      .ok (Json.str "x") ∧
    shapesMatch mismatchSecret.type (Json.str "x") = false :=
  ⟨rfl, rfl, rfl⟩

/-- C8 counterexample: two log rows of the same user share instant 10 but
carry ids 5 and 3, in that insertion order; the query (ORDER BY timestamp,
no secondary key) returns them in that order, which is not strictly ordered
by the pair (instant, id) — ids are random UUIDs, so ties are not resolved
id-ascending. -/
theorem getSyncOperationsAfter_ties_not_id_ordered :
    GetSyncOperationsAfter
      [{ id := 5, userID := 1, secretID := 9, operation := .create,
         timestamp := 10 },
       { id := 3, userID := 1, secretID := 9, operation := .update,
         timestamp := 10 }] 1 0 =
      [{ id := 5, userID := 1, secretID := 9, operation := .create,
         timestamp := 10 },
       { id := 3, userID := 1, secretID := 9, operation := .update,
         timestamp := 10 }] ∧
    ¬ List.Pairwise
        (fun a b => a.timestamp < b.timestamp ∨
          (a.timestamp = b.timestamp ∧ a.id < b.id))
        (GetSyncOperationsAfter
          [{ id := 5, userID := 1, secretID := 9, operation := .create,
             timestamp := 10 },
           { id := 3, userID := 1, secretID := 9, operation := .update,
             timestamp := 10 }] 1 0) := by
  refine ⟨rfl, ?_⟩
  intro h
  have h2 := List.rel_of_pairwise_cons h (List.mem_singleton.mpr rfl)
  simp at h2

/-- C2 (amended): in `CreateSecret` the store insert runs first and its
failure aborts the transaction unchanged, so the operation-log entry is
never observed without the store change; but a log-append failure is caught
and only logged as a warning, so the transaction commits and the store
change is observed without the log entry. -/
theorem createSecretTx_commit_semantics
    (logAppendFails : Bool) (st : ServerState) (secret : Secret)
    (op : SyncOperation) :
    (∀ res st1, createSecretTx logAppendFails st secret op = (res, st1) →
       op ∈ st1.syncOps → op ∈ st.syncOps ∨ secret ∈ st1.secrets) ∧
    (st.secrets.any (fun row => row.id == secret.id) = true →
       createSecretTx logAppendFails st secret op =
         (.error "failed to create secret: failed to create secret", st)) ∧
    (st.secrets.any (fun row => row.id == secret.id) = false →
       logAppendFails = true →
       createSecretTx logAppendFails st secret op =
         (.ok (), { st with secrets := st.secrets ++ [secret] })) := by
  unfold createSecretTx WithTransaction repoCreateSecret repoCreateSyncOperation
  refine ⟨?_, ?_, ?_⟩
  · intro res st1 heq hop
    by_cases hdup : st.secrets.any (fun row => row.id == secret.id)
    · simp only [hdup, if_true] at heq
      cases heq
      exact Or.inl hop
    · simp only [hdup, Bool.false_eq_true, if_false] at heq
      cases logAppendFails with
      | true =>
        simp only [if_true] at heq
        cases heq
        exact Or.inr (List.mem_append_right _ (List.mem_singleton.mpr rfl))
      | false =>
        simp only [Bool.false_eq_true, if_false] at heq
        cases heq
        exact Or.inr (List.mem_append_right _ (List.mem_singleton.mpr rfl))
  · intro hdup
    simp [hdup]
  · intro hdup hfail
    simp [hdup, hfail]

/-- C7 (amended): the decode path checks only that decryption succeeds and
that the plaintext parses as JSON; it receives no declared type and
performs no shape check, so `DecryptSecretData` returns a payload exactly
when `Decrypt` and the JSON parse succeed, whatever the payload's shape. -/
theorem decryptSecretData_characterization {α : Type}
    (parse : List Nat → Option α)
    (kdf : String → List Nat → List Nat)
    (aeadOpen : List Nat → List Nat → List Nat → Option (List Nat))
    (blob : List Nat) (pw : String) :
    ∀ payload, DecryptSecretData parse kdf aeadOpen blob pw = .ok payload ↔
      ∃ bytes, Decrypt kdf aeadOpen blob pw = .ok bytes ∧
        parse bytes = some payload := by
  intro payload
  unfold DecryptSecretData
  cases h : Decrypt kdf aeadOpen blob pw with
  | error e => simp [h]
  | ok bytes =>
    cases hp : parse bytes with
    | none => simp [h, hp]
    | some d => simp [h, hp, eq_comm]

/-- C8 (amended): the rows returned by `GetSyncOperationsAfter` are exactly
the given user's log entries with instant strictly greater than the bound,
ordered by instant ascending; the query names no secondary sort key, so
nothing orders entries that share an instant. -/
theorem getSyncOperationsAfter_complete_and_sorted
    (table : List SyncOperation) (uid t : Nat) :
    (GetSyncOperationsAfter table uid t).Perm
      (table.filter (fun op => decide (op.userID = uid ∧ t < op.timestamp))) ∧
    List.Sorted tsLE (GetSyncOperationsAfter table uid t) ∧
    ∀ op, op ∈ GetSyncOperationsAfter table uid t ↔
      op ∈ table ∧ op.userID = uid ∧ t < op.timestamp := by
  refine ⟨List.perm_insertionSort _ _, List.sorted_insertionSort _ _, ?_⟩
  intro op
  rw [GetSyncOperationsAfter, (List.perm_insertionSort tsLE _).mem_iff,
    List.mem_filter]
  simp

/-- C10: `VerifyPassword` is total over arbitrary verifier strings — it
returns a boolean on every input — and it returns false whenever the
verifier is not valid base64 (the decoder rejects it) or decodes to a byte
string whose length is not exactly saltSize + keySize = 64. -/
theorem verifyPassword_total_rejects_malformed
    (b64decode : String → Option (List Nat))
    (kdf : String → List Nat → List Nat) (password v : String) :
    (VerifyPassword b64decode kdf password v = true ∨
     VerifyPassword b64decode kdf password v = false) ∧
    (b64decode v = none → VerifyPassword b64decode kdf password v = false) ∧
    (∀ data, b64decode v = some data → data.length ≠ saltSize + keySize →
       VerifyPassword b64decode kdf password v = false) := by
  refine ⟨Bool.eq_false_or_eq_true _, ?_, ?_⟩
  · intro h
    unfold VerifyPassword
    rw [h]
  · intro data h hlen
    unfold VerifyPassword
    rw [h]
    simp [hlen]

/-- Witness for C10 at concrete inputs: a verifier the decoder rejects and
a verifier decoding to 3 bytes are both rejected with `false`. -/
theorem verifyPassword_total_rejects_malformed_witness :
    VerifyPassword (fun _ => none) kdfZero "p" "***" = false ∧
    VerifyPassword (fun _ => some [1, 2, 3]) kdfZero "p" "AQID" = false :=
  ⟨(verifyPassword_total_rejects_malformed (fun _ => none) kdfZero "p"
      "***").2.1 rfl,
   (verifyPassword_total_rejects_malformed (fun _ => some [1, 2, 3]) kdfZero
      "p" "AQID").2.2 [1, 2, 3] rfl (by decide)⟩

/-- Witness for C2 (amended) at concrete inputs: an empty store, a fresh
secret and a failing log append — the call commits the insert and reports
success. -/
theorem createSecretTx_commit_semantics_witness :
    createSecretTx true { secrets := [], syncOps := [] }
      { id := 9, userID := 2, type := .card, name := "c", metadata := "",
        data := [2], syncHash := "s", createdAt := 4, updatedAt := 4 }
      { id := 200, userID := 2, secretID := 9, operation := .create,
        timestamp := 4 } =
      (.ok (),
       { secrets :=
           [{ id := 9, userID := 2, type := .card, name := "c",
              metadata := "", data := [2], syncHash := "s", createdAt := 4,
              updatedAt := 4 }]
         syncOps := [] }) :=
  (createSecretTx_commit_semantics true { secrets := [], syncOps := [] }
    { id := 9, userID := 2, type := .card, name := "c", metadata := "",
      data := [2], syncHash := "s", createdAt := 4, updatedAt := 4 }
    { id := 200, userID := 2, secretID := 9, operation := .create,
      timestamp := 4 }).2.2 rfl rfl

/-- C4: the encoding of a payload is exactly
salt (32 bytes) ++ nonce (12 bytes) ++ AEAD-sealed JSON bytes, and
decoding that blob under the same password recovers the original payload.
The hypotheses are the contracts of the external primitives at the inputs
used: the JSON codec round-trips the payload, and the AEAD opens its own
seal under the same key and nonce. -/
theorem decrypt_of_append (kdf : String → List Nat → List Nat)
    (aeadOpen : List Nat → List Nat → List Nat → Option (List Nat))
    (salt nonce ct : List Nat) (pw : String)
    (hsalt : salt.length = saltSize) (hnonce : nonce.length = nonceSize) :
    Decrypt kdf aeadOpen (salt ++ nonce ++ ct) pw =
      match aeadOpen (kdf pw salt) nonce ct with
      | some plaintext => .ok plaintext
      | none => .error .decryptionFailed := by
  simp only [Decrypt]
  rw [if_neg (by
    rw [List.length_append, List.length_append, hsalt, hnonce]
    omega)]
  rw [List.append_assoc, List.take_left' hsalt, List.drop_left' hsalt,
    List.take_left' hnonce, ← List.append_assoc,
    List.drop_left' (by rw [List.length_append, hsalt, hnonce])]

theorem encryptSecretData_roundtrip {α : Type}
    (marshal : α → List Nat) (parse : List Nat → Option α)
    (kdf : String → List Nat → List Nat)
    (aeadSeal : List Nat → List Nat → List Nat → List Nat)
    (aeadOpen : List Nat → List Nat → List Nat → Option (List Nat))
    (payload : α) (password : String) (salt nonce : List Nat)
    (hsalt : salt.length = saltSize) (hnonce : nonce.length = nonceSize)
    (hparse : parse (marshal payload) = some payload)
    (haead : aeadOpen (kdf password salt) nonce
        (aeadSeal (kdf password salt) nonce (marshal payload)) =
        some (marshal payload)) :
    EncryptSecretData marshal kdf aeadSeal payload password salt nonce =
      salt ++ nonce ++ aeadSeal (kdf password salt) nonce (marshal payload) ∧
    DecryptSecretData parse kdf aeadOpen
      (EncryptSecretData marshal kdf aeadSeal payload password salt nonce)
      password = .ok payload := by
  have hlay : EncryptSecretData marshal kdf aeadSeal payload password salt
      nonce =
      salt ++ nonce ++ aeadSeal (kdf password salt) nonce (marshal payload) :=
    rfl
  refine ⟨hlay, ?_⟩
  rw [hlay]
  have hdec : Decrypt kdf aeadOpen
      (salt ++ nonce ++ aeadSeal (kdf password salt) nonce (marshal payload))
      password = .ok (marshal payload) := by
    rw [decrypt_of_append kdf aeadOpen _ _ _ _ hsalt hnonce, haead]
  rw [List.append_assoc] at hdec
  unfold DecryptSecretData
  simp [hdec, hparse]

/-- Witness for C4 with the toy primitives at an empty payload: marshalling
is the identity on byte lists, the payload is the empty byte string, and
the toy AEAD opens its own seal. -/
theorem encryptSecretData_roundtrip_witness :
    EncryptSecretData (fun x => x) kdfToy sealToy ([] : List Nat) "a"
      saltZero nonceZero =
      saltZero ++ (nonceZero ++ sealToy (kdfToy "a" saltZero) nonceZero []) ∧
    DecryptSecretData (fun b => if b = [] then some ([] : List Nat) else none)
      kdfToy openToy
      (EncryptSecretData (fun x => x) kdfToy sealToy ([] : List Nat) "a"
        saltZero nonceZero) "a" = .ok ([] : List Nat) :=
  encryptSecretData_roundtrip (fun x => x)
    (fun b => if b = [] then some ([] : List Nat) else none) kdfToy sealToy
    openToy ([] : List Nat) "a" saltZero nonceZero (by decide) (by decide)
    (by decide) (by decide)

/-- C5: `Decrypt` rejects every blob shorter than 44 bytes with
`invalidData` before touching the AEAD; on longer blobs every AEAD
authentication failure — whatever its cause — surfaces as the single error
`decryptionFailed`; in particular, decrypting an encoding under a password
whose derived key the AEAD rejects (the wrong-password case, by the AEAD
authentication contract stated as the hypothesis) fails with
`decryptionFailed`. -/
theorem decrypt_error_modes
    (kdf : String → List Nat → List Nat)
    (aeadSeal : List Nat → List Nat → List Nat → List Nat)
    (aeadOpen : List Nat → List Nat → List Nat → Option (List Nat))
    (data : List Nat) (password wrongPassword : String)
    (salt nonce : List Nat)
    (hsalt : salt.length = saltSize) (hnonce : nonce.length = nonceSize)
    (hauth : aeadOpen (kdf wrongPassword salt) nonce
        (aeadSeal (kdf password salt) nonce data) = none) :
    (∀ blob pw, blob.length < saltSize + nonceSize →
       Decrypt kdf aeadOpen blob pw = .error .invalidData) ∧
    (∀ blob pw, saltSize + nonceSize ≤ blob.length →
       aeadOpen (kdf pw (blob.take saltSize))
         ((blob.drop saltSize).take nonceSize)
         (blob.drop (saltSize + nonceSize)) = none →
       Decrypt kdf aeadOpen blob pw = .error .decryptionFailed) ∧
    Decrypt kdf aeadOpen (Encrypt kdf aeadSeal data password salt nonce)
      wrongPassword = .error .decryptionFailed := by
  have hshort : ∀ blob pw, blob.length < saltSize + nonceSize →
      Decrypt kdf aeadOpen blob pw = .error .invalidData := by
    intro blob pw hlen
    simp only [Decrypt]
    rw [if_pos hlen]
  have hopen : ∀ blob pw, saltSize + nonceSize ≤ blob.length →
      aeadOpen (kdf pw (blob.take saltSize))
        ((blob.drop saltSize).take nonceSize)
        (blob.drop (saltSize + nonceSize)) = none →
      Decrypt kdf aeadOpen blob pw = .error .decryptionFailed := by
    intro blob pw hlen hfail
    simp only [Decrypt]
    rw [if_neg (by omega), hfail]
  refine ⟨hshort, hopen, ?_⟩
  have hlay : Encrypt kdf aeadSeal data password salt nonce =
      salt ++ nonce ++ aeadSeal (kdf password salt) nonce data := rfl
  rw [hlay, decrypt_of_append kdf aeadOpen _ _ _ _ hsalt hnonce, hauth]

/-- Witness for C5 with the toy primitives: the payload [5] sealed under
password "a" carries the one-byte tag [1]; under the wrong password "b" the
derived key is [2], the toy AEAD rejects the tag, and `Decrypt` reports
`decryptionFailed`; the short-blob and open-failure conjuncts are
instantiated at a 3-byte blob and at a 44-byte all-zero blob that the toy
AEAD rejects. -/
theorem decrypt_error_modes_witness :
    Decrypt kdfToy openToy [0, 1, 2] "b" = .error .invalidData ∧
    Decrypt kdfToy openToy (List.replicate 44 0) "b" =
      .error .decryptionFailed ∧
    Decrypt kdfToy openToy (Encrypt kdfToy sealToy [5] "a" saltZero nonceZero)
      "b" = .error .decryptionFailed := by
  have h := decrypt_error_modes kdfToy sealToy openToy [5] "a" "b" saltZero
    nonceZero (by decide) (by decide) (by decide)
  exact ⟨h.1 [0, 1, 2] "b" (by decide), h.2.1 (List.replicate 44 0) "b"
    (by decide) (by decide), h.2.2⟩

/-- C3: in the sync service wired by `NewServer`, a decryption failure for
an individual secret is not fatal — the sync still returns a response, the
failing secret is omitted from the updated list, every other modified
secret that does decrypt is still included, and the response carries the
new sync instant and its (empty) deleted list; in particular a sync whose
decryption oracle rejects everything (a wrong master password) returns an
empty updated list rather than an error. -/
theorem serviceSync_decode_failure_not_fatal {α : Type}
    (decrypt : List Nat → String → Except String α)
    (table : List Secret) (uid last : Nat) (pw : String) (now : Nat)
    (s : Secret) (e : String)
    (hids : ∀ t ∈ table, t.id = s.id → t = s)
    (hmem : s ∈ table) (huid : s.userID = uid) (hts : last < s.updatedAt)
    (hfail : decrypt s.data pw = .error e) :
    syncOk (serviceProcessSyncRequest decrypt table uid last pw now) = true ∧
    ∀ resp, serviceProcessSyncRequest decrypt table uid last pw now =
        .ok resp →
      resp.syncTime = now ∧ resp.deletedSecrets = [] ∧
      s.id ∉ resp.updatedSecrets.map (fun r => r.id) ∧
      ∀ t ∈ table, t.userID = uid → last < t.updatedAt →
        (∃ d, decrypt t.data pw = .ok d) →
        t.id ∈ resp.updatedSecrets.map (fun r => r.id) := by
  refine ⟨rfl, ?_⟩
  intro resp hresp
  have hresp2 : (⟨(GetSecretsModifiedAfter table uid last).filterMap
      (fun secret => match decrypt secret.data pw with
        | .error _ => none
        | .ok d => some (buildSecretResponse secret d)),
      [], now⟩ : SyncResponse α) = resp := Except.ok.inj hresp
  subst hresp2
  refine ⟨rfl, rfl, ?_, ?_⟩
  · intro hmemMap
    rw [List.mem_map] at hmemMap
    obtain ⟨r, hr, hrid⟩ := hmemMap
    rw [List.mem_filterMap] at hr
    obtain ⟨t, ht, hf⟩ := hr
    have ht2 : t ∈ table := by
      have h3 := (List.perm_insertionSort updLE _).mem_iff.mp ht
      exact (List.mem_filter.mp h3).1
    cases hd : decrypt t.data pw with
    | error e2 => simp [hd] at hf
    | ok d =>
      simp only [hd] at hf
      have hf2 : buildSecretResponse t d = r := Option.some.inj hf
      have hid : t.id = s.id := by
        have h4 : (buildSecretResponse t d).id = s.id := by rw [hf2, hrid]
        exact h4
      have hts2 := hids t ht2 hid
      rw [hts2, hfail] at hd
      cases hd
  · intro t ht htu htl hdec
    obtain ⟨d, hd⟩ := hdec
    rw [List.mem_map]
    refine ⟨buildSecretResponse t d, ?_, rfl⟩
    rw [List.mem_filterMap]
    refine ⟨t, ?_, by simp [hd]⟩
    show t ∈ GetSecretsModifiedAfter table uid last
    rw [GetSecretsModifiedAfter,
      (List.perm_insertionSort updLE _).mem_iff, List.mem_filter]
    refine ⟨ht, ?_⟩
    simp [htu, htl]

/-- Witness for C3: with the concrete store [sA, sB] and the oracle `dec0`
that rejects sA's ciphertext, a sync from instant 0 succeeds, omits sA from
the updated ids, and still includes sB. -/
theorem serviceSync_decode_failure_not_fatal_witness :
    syncOk (serviceProcessSyncRequest dec0 [sA, sB] 1 0 "mp" 9) = true ∧
    sA.id ∉
      ((⟨(GetSecretsModifiedAfter [sA, sB] 1 0).filterMap
          (fun secret => match dec0 secret.data "mp" with
            | .error _ => none
            | .ok d => some (buildSecretResponse secret d)),
        [], 9⟩ : SyncResponse (List Nat)).updatedSecrets.map
          (fun r => r.id)) ∧
    sB.id ∈
      ((⟨(GetSecretsModifiedAfter [sA, sB] 1 0).filterMap
          (fun secret => match dec0 secret.data "mp" with
            | .error _ => none
            | .ok d => some (buildSecretResponse secret d)),
        [], 9⟩ : SyncResponse (List Nat)).updatedSecrets.map
          (fun r => r.id)) := by
  have h := serviceSync_decode_failure_not_fatal dec0 [sA, sB] 1 0 "mp" 9
    sA "bad" (by decide) (by decide) rfl (by decide) rfl
  have h2 := h.2 _ rfl
  exact ⟨h.1, h2.2.2.1, h2.2.2.2 sB (by decide) rfl (by decide) ⟨[2], rfl⟩⟩

/-- Positionally paired elements of a list zipped with its own map are
related by the mapped function. -/
theorem zip_map_self (f : Secret → Secret) (l : List Secret) :
    ∀ p ∈ l.zip (l.map f), p.2 = f p.1 := by
  induction l with
  | nil => intro p hp; cases hp
  | cons a l ih =>
    intro p hp
    rw [List.map_cons, List.zip_cons_cons, List.mem_cons] at hp
    cases hp with
    | inl h => rw [h]
    | inr h => exact ih p h

/-- C9: a successful repository update leaves the table the same length and
rewrites each row positionally: the fields id, user id, type and created-at
of every row are unchanged; rows not matching the update's (id, user id)
are untouched entirely; and the matching rows take exactly the new name,
metadata, ciphertext, fingerprint and updated-at. -/
theorem updateSecret_frame (table table1 : List Secret) (s : Secret)
    (h : UpdateSecret table s = .ok table1) :
    table1.length = table.length ∧
    ∀ p ∈ table.zip table1,
      p.2.id = p.1.id ∧ p.2.userID = p.1.userID ∧ p.2.type = p.1.type ∧
      p.2.createdAt = p.1.createdAt ∧
      (¬(p.1.id = s.id ∧ p.1.userID = s.userID) → p.2 = p.1) ∧
      (p.1.id = s.id ∧ p.1.userID = s.userID →
        p.2.name = s.name ∧ p.2.metadata = s.metadata ∧ p.2.data = s.data ∧
        p.2.syncHash = s.syncHash ∧ p.2.updatedAt = s.updatedAt) := by
  have htab : table1 = table.map (updateRow s) := by
    unfold UpdateSecret at h
    cases hany : table.any
        (fun row => decide (row.id = s.id ∧ row.userID = s.userID)) with
    | true =>
      rw [if_pos hany] at h
      exact (Except.ok.inj h).symm
    | false =>
      rw [if_neg (by rw [hany]; exact Bool.false_ne_true)] at h
      cases h
  subst htab
  refine ⟨by rw [List.length_map], ?_⟩
  intro p hp
  have hps := zip_map_self (updateRow s) table p hp
  rw [hps]
  unfold updateRow
  by_cases hc : p.1.id = s.id ∧ p.1.userID = s.userID
  · rw [if_pos hc]
    exact ⟨rfl, rfl, rfl, rfl, fun hn => absurd hc hn,
      fun _ => ⟨rfl, rfl, rfl, rfl, rfl⟩⟩
  · rw [if_neg hc]
    exact ⟨rfl, rfl, rfl, rfl, fun _ => rfl, fun hcc => absurd hcc hc⟩

/-- Witness for C9 at a concrete one-row table: the update request carries a
different type and created-at, yet the stored row keeps its own type and
created-at while taking the new name, metadata, ciphertext, fingerprint and
updated-at. -/
theorem updateSecret_frame_witness :
    ({ id := 1, userID := 1, type := .text, name := "new", metadata := "m2",
       data := [9], syncHash := "h9", createdAt := 5,
       updatedAt := 6 } : Secret).type =
      ({ id := 1, userID := 1, type := .text, name := "old", metadata := "m",
         data := [0], syncHash := "h0", createdAt := 5,
         updatedAt := 5 } : Secret).type ∧
    ({ id := 1, userID := 1, type := .text, name := "new", metadata := "m2",
       data := [9], syncHash := "h9", createdAt := 5,
       updatedAt := 6 } : Secret).createdAt =
      ({ id := 1, userID := 1, type := .text, name := "old", metadata := "m",
         data := [0], syncHash := "h0", createdAt := 5,
         updatedAt := 5 } : Secret).createdAt := by
  have h := updateSecret_frame
    [{ id := 1, userID := 1, type := .text, name := "old", metadata := "m",
       data := [0], syncHash := "h0", createdAt := 5, updatedAt := 5 }]
    [{ id := 1, userID := 1, type := .text, name := "new", metadata := "m2",
       data := [9], syncHash := "h9", createdAt := 5, updatedAt := 6 }]
    { id := 1, userID := 1, type := .card, name := "new", metadata := "m2",
      data := [9], syncHash := "h9", createdAt := 77, updatedAt := 6 }
    rfl
  have h2 := h.2
    ({ id := 1, userID := 1, type := .text, name := "old", metadata := "m",
       data := [0], syncHash := "h0", createdAt := 5, updatedAt := 5 },
     { id := 1, userID := 1, type := .text, name := "new", metadata := "m2",
       data := [9], syncHash := "h9", createdAt := 5, updatedAt := 6 })
    (by decide)
  exact ⟨h2.2.2.1, h2.2.2.2.1⟩

end Gophkeeper
